import Mathlib

/-!
Verification of the counter module declared in `src/pythontemplate/_c_src/foo.h`.

The header declares the result-code enumeration `foo_res_t`, the counter
struct `foo_t`, and the two operations `foo_init` and `foo_increment`.
Only the header is part of the sources; the bodies of the two operations
are modelled from the specification (each such definition says so in its
doc comment).  The C `int` field is embedded as a mathematical integer,
together with an explicit `w`-bit two's-complement range and a wrap-around
(mod `2^w`) reduction for the machine-precision variant of increment.
-/

/-- The result-code enumeration of `foo.h`:
`typedef enum { FOO_OK = 0, } foo_res_t;`.  `FOO_OK` is its only value. -/
inductive foo_res_t where
  | FOO_OK
deriving DecidableEq

/-- Numeric value of a `foo_res_t` enumerator; `FOO_OK = 0` in the header. -/
def foo_res_t.toInt : foo_res_t → Int
  | .FOO_OK => 0

/-- The counter struct of `foo.h`: `typedef struct { int counter; } foo_t;`.
The single C `int` field is embedded as a mathematical integer; membership in
the `w`-bit representable range is tracked by `foo_t.valid`. -/
structure foo_t where
  counter : Int
deriving DecidableEq

/-- Smallest value of a `w`-bit two's-complement signed integer. -/
def intMin (w : Nat) : Int := -(2 ^ (w - 1))

/-- Largest value of a `w`-bit two's-complement signed integer. -/
def intMax (w : Nat) : Int := 2 ^ (w - 1) - 1

/-- Wrap-around (mod `2^w`) reduction of an integer into the `w`-bit
two's-complement range `[intMin w, intMax w]`. -/
def wrap (w : Nat) (x : Int) : Int := (x + 2 ^ (w - 1)) % 2 ^ w - 2 ^ (w - 1)

/-- The counter value is representable in a `w`-bit signed `int`. -/
def foo_t.valid (w : Nat) (c : foo_t) : Prop :=
  intMin w ≤ c.counter ∧ c.counter ≤ intMax w

instance (w : Nat) (c : foo_t) : Decidable (c.valid w) := by
  unfold foo_t.valid; infer_instance

/-- Modelled from the spec: the body of `foo_init` is not under `src/`
(`foo.h` only declares `int foo_init(foo_t *foo);`).  Spec §4.1 `Init`:
"Effect: sets `count` to 0.  Result: always signals success in the current
design."  The mutated storage is returned together with the result code. -/
def foo_init (_c : foo_t) : foo_res_t × foo_t :=
  (.FOO_OK, ⟨0⟩)

/-- Modelled from the spec: the body of `foo_increment` is not under `src/`
(`foo.h` only declares `int foo_increment(foo_t *foo);`).  Spec §4.1
`Increment`: "Effect: sets `count` to `count + 1`.  Result: always signals
success in the current design."  Idealized unbounded-integer view. -/
def foo_increment (c : foo_t) : foo_res_t × foo_t :=
  (.FOO_OK, ⟨c.counter + 1⟩)

/-- Modelled from the spec: `foo_increment` at machine precision.  Spec §7:
"`Increment` performs no overflow check before incrementing", so the
unguarded `count + 1` is reduced by the wrap-around (mod `2^w`) embedding of
the `w`-bit C `int`. -/
def foo_increment_wrap (w : Nat) (c : foo_t) : foo_res_t × foo_t :=
  (.FOO_OK, ⟨wrap w (c.counter + 1)⟩)

/-- State after `n` successive `foo_increment` calls (unbounded view). -/
def incN (c : foo_t) : Nat → foo_t
  | 0 => c
  | n + 1 => (foo_increment (incN c n)).2

/-- State after `n` successive `foo_increment` calls at machine precision. -/
def incNwrap (w : Nat) (c : foo_t) : Nat → foo_t
  | 0 => c
  | n + 1 => (foo_increment_wrap w (incNwrap w c n)).2

/-- Two-instance memory model: distinct counter instances occupy disjoint
caller-owned storage, so a state is a pair and each operation touches only
its target component.  `initFst` runs `foo_init` on the first instance. -/
def initFst (s : foo_t × foo_t) : foo_t × foo_t :=
  ((foo_init s.1).2, s.2)

/-- `foo_init` applied to the second of two distinct instances. -/
def initSnd (s : foo_t × foo_t) : foo_t × foo_t :=
  (s.1, (foo_init s.2).2)

/-- `foo_increment` applied to the first of two distinct instances. -/
def incFst (s : foo_t × foo_t) : foo_t × foo_t :=
  ((foo_increment s.1).2, s.2)

theorem two_pow_split (w : Nat) (hw : 0 < w) :
    (2 : Int) ^ w = 2 ^ (w - 1) * 2 := by
  rw [← pow_succ]
  congr 1
  omega

theorem wrap_eq_self (w : Nat) (hw : 0 < w) (x : Int)
    (hlo : intMin w ≤ x) (hhi : x ≤ intMax w) : wrap w x = x := by
  unfold intMin at hlo
  unfold intMax at hhi
  unfold wrap
  have h2 := two_pow_split w hw
  have hnn : 0 ≤ x + 2 ^ (w - 1) := by linarith
  have hlt : x + 2 ^ (w - 1) < 2 ^ w := by rw [h2]; linarith
  rw [Int.emod_eq_of_lt hnn hlt]
  ring

theorem wrap_max_succ (w : Nat) (hw : 0 < w) :
    wrap w (intMax w + 1) = intMin w := by
  unfold wrap intMax intMin
  have h2 := two_pow_split w hw
  have e : (2 : Int) ^ (w - 1) - 1 + 1 + 2 ^ (w - 1) = 2 ^ w := by
    rw [h2]; ring
  rw [e, Int.emod_self]
  ring

theorem incN_counter (c : foo_t) (n : Nat) :
    (incN c n).counter = c.counter + n := by
  induction n with
  | zero => simp [incN]
  | succ n ih =>
      simp only [incN, foo_increment, ih]
      push_cast
      ring

theorem incNwrap_counter (w : Nat) (hw : 0 < w) (c : foo_t)
    (hlo : intMin w ≤ c.counter) (k : Nat)
    (hk : c.counter + k ≤ intMax w) :
    (incNwrap w c k).counter = c.counter + k := by
  induction k with
  | zero => simp [incNwrap]
  | succ k ih =>
      have hk' : c.counter + k ≤ intMax w := by
        have : (k : Int) ≤ (k : Int) + 1 := by linarith
        push_cast at hk
        linarith
      have ihk := ih hk'
      simp only [incNwrap, foo_increment_wrap, ihk]
      have hmin : intMin w ≤ c.counter + k + 1 := by
        have hknn : (0 : Int) ≤ k := Int.natCast_nonneg k
        linarith
      have hmax : c.counter + k + 1 ≤ intMax w := by
        push_cast at hk
        linarith
      rw [wrap_eq_self w hw _ hmin hmax]
      push_cast
      ring

/-- C1: for every counter storage `c`, `foo_init c` returns `FOO_OK` and
leaves the `counter` field equal to 0. -/
theorem foo_init_spec (c : foo_t) :
    (foo_init c).1 = foo_res_t.FOO_OK ∧ (foo_init c).2.counter = 0 :=
  ⟨rfl, rfl⟩

/-- C2: after initialization, `n` successive `foo_increment` calls leave the
`counter` field equal to `n`, and each single call increases the field by
exactly 1 relative to its value before the call. -/
theorem increment_n_times (c : foo_t) (n : Nat) :
    (incN (foo_init c).2 n).counter = n ∧
    ∀ d : foo_t, (foo_increment d).2.counter = d.counter + 1 := by
  refine ⟨?_, fun d => rfl⟩
  rw [incN_counter]
  simp [foo_init]

/-- C3: every call to `foo_init` and `foo_increment` (in both the unbounded
and the machine-precision embedding) returns `FOO_OK`, whose numeric value
is 0 and which is the only value of `foo_res_t`. -/
theorem result_always_ok :
    (∀ c : foo_t, (foo_init c).1 = foo_res_t.FOO_OK) ∧
    (∀ c : foo_t, (foo_increment c).1 = foo_res_t.FOO_OK) ∧
    (∀ w : Nat, ∀ c : foo_t, (foo_increment_wrap w c).1 = foo_res_t.FOO_OK) ∧
    foo_res_t.FOO_OK.toInt = 0 ∧
    (∀ r : foo_res_t, r = foo_res_t.FOO_OK) := by
  refine ⟨fun c => rfl, fun c => rfl, fun w c => rfl, rfl, fun r => ?_⟩
  cases r
  rfl

/-- C4: `foo_init` resets unconditionally: after any prior sequence of
`foo_increment` calls, calling `foo_init` again sets the `counter` field
back to 0; indeed it does so from every state. -/
theorem foo_init_idempotent (c : foo_t) (n : Nat) :
    (foo_init (incN (foo_init c).2 n)).2.counter = 0 ∧
    ∀ d : foo_t, (foo_init d).2.counter = 0 :=
  ⟨rfl, fun _ => rfl⟩

/-- C5: `foo_increment` changes the `counter` field by exactly +1 and
nothing else: the whole resulting state is the old state with `counter`
replaced by `counter + 1`. -/
theorem increment_frame (c : foo_t) :
    (foo_increment c).2 = foo_t.mk (c.counter + 1) :=
  rfl

/-- C6: distinct instances are independent: in the two-instance memory
model, `Init(c1); Init(c2); Increment(c1)` leaves the first counter at 1
and the second at 0, and operations on the first instance never change the
second component of the state. -/
theorem instances_independent (c1 c2 : foo_t) :
    (incFst (initSnd (initFst (c1, c2)))).1.counter = 1 ∧
    (incFst (initSnd (initFst (c1, c2)))).2.counter = 0 ∧
    (∀ s : foo_t × foo_t, (incFst s).2 = s.2) ∧
    (∀ s : foo_t × foo_t, (initFst s).2 = s.2) :=
  ⟨rfl, rfl, fun _ => rfl, fun _ => rfl⟩

/-- C7: on a single valid instance, the `counter` field is monotonically
non-decreasing across successive machine-precision `foo_increment` calls,
provided no overflow occurs during the `n` calls. -/
theorem counter_monotone (w : Nat) (hw : 0 < w) (c : foo_t)
    (hv : c.valid w) (n : Nat) (hov : c.counter + n ≤ intMax w)
    (m : Nat) (hmn : m ≤ n) :
    (incNwrap w c m).counter ≤ (incNwrap w c n).counter := by
  have hm : c.counter + m ≤ intMax w := by
    have hcast : (m : Int) ≤ (n : Int) := Int.ofNat_le.mpr hmn
    linarith
  rw [incNwrap_counter w hw c hv.1 m hm, incNwrap_counter w hw c hv.1 n hov]
  have hcast : (m : Int) ≤ (n : Int) := Int.ofNat_le.mpr hmn
  linarith

/-- Witness for C7 at `w = 8`, `c = ⟨0⟩`, `m = 1`, `n = 3`. -/
theorem counter_monotone_witness :
    (incNwrap 8 ⟨0⟩ 1).counter ≤ (incNwrap 8 ⟨0⟩ 3).counter :=
  counter_monotone 8 (by decide) ⟨0⟩ (by decide) 3 (by decide) 1 (by decide)

/-- C8: `foo_t` is a plain structure holding exactly one integer field and
nothing else: projecting the field is a bijection onto the integers, and
rebuilding from the field recovers the whole value. -/
theorem foo_t_single_field :
    Function.Bijective foo_t.counter ∧
    (∀ x : Int, (foo_t.mk x).counter = x) ∧
    (∀ c : foo_t, foo_t.mk c.counter = c) := by
  refine ⟨⟨fun a b h => ?_, fun x => ⟨⟨x⟩, rfl⟩⟩, fun x => rfl, fun c => rfl⟩
  cases a
  cases b
  simpa using h

/-- C9: `foo_increment` performs no overflow guard: at machine precision
its result is always the wrap-around of `counter + 1`, so incrementing at
the maximum representable value `intMax w` wraps to the minimum
`intMin w`. -/
theorem increment_no_overflow_check (w : Nat) (hw : 0 < w) :
    (∀ c : foo_t, (foo_increment_wrap w c).2.counter = wrap w (c.counter + 1)) ∧
    (foo_increment_wrap w ⟨intMax w⟩).2.counter = intMin w := by
  refine ⟨fun c => rfl, ?_⟩
  show wrap w (intMax w + 1) = intMin w
  exact wrap_max_succ w hw

/-- Witness for C9 at `w = 8`: incrementing 127 yields -128. -/
theorem increment_no_overflow_check_witness :
    (foo_increment_wrap 8 ⟨intMax 8⟩).2.counter = intMin 8 :=
  (increment_no_overflow_check 8 (by decide)).2

/-- C10: both operations are deterministic: from equal counter states the
returned result codes and the resulting states are equal. -/
theorem operations_deterministic (c c' : foo_t) (h : c = c') :
    foo_init c = foo_init c' ∧
    foo_increment c = foo_increment c' ∧
    ∀ w : Nat, foo_increment_wrap w c = foo_increment_wrap w c' := by
  subst h
  exact ⟨rfl, rfl, fun _ => rfl⟩

/-- Witness for C10 at the state with counter 5. -/
theorem operations_deterministic_witness :
    foo_init ⟨5⟩ = foo_init ⟨5⟩ ∧
    foo_increment ⟨5⟩ = foo_increment ⟨5⟩ ∧
    ∀ w : Nat, foo_increment_wrap w ⟨5⟩ = foo_increment_wrap w ⟨5⟩ :=
  operations_deterministic ⟨5⟩ ⟨5⟩ rfl
